import Mathlib

/-! Shallow embedding of `src/script.py` (ACS summary-file table assembler).

Cells are modelled as `Option String`: `read_from_csv` passes
`na_values=['.', -1], dtype=str` to pandas, so every cell is either a
string or absent (NaN); `none` stands for NaN after that normalization.
DataFrames are modelled as a column-name list plus a row list
(`Frame`), and an index-carrying frame (`KFrame`) models the result of
`set_index`.
-/

set_option maxRecDepth 4000

/-- A pandas cell after `na_values` normalization: `none` is NaN. -/
abbrev Value := Option String

/-- A pandas DataFrame with a default (positional) index: named columns
and rows of cells. -/
structure Frame where
  cols : List String
  rows : List (List Value)
deriving DecidableEq

/-- A pandas DataFrame after `set_index`: the index labels live beside
the remaining columns. -/
structure KFrame where
  index : List Value
  cols : List String
  rows : List (List Value)
deriving DecidableEq

/-- A frame ready for `to_csv(index=False)`: a header and data rows. -/
structure CsvDf where
  header : List String
  rows : List (List Value)
deriving DecidableEq

/-- Cell of row `r` at the column named `c` of frame `f` (`df[c]` for
one row); absent column or short row reads as NaN. -/
def Frame.getCell (f : Frame) (r : List Value) (c : String) : Value :=
  match f.cols.findIdx? (fun x => x == c) with
  | some i => r.getD i none
  | none => none

/-- Model of `read_from_csv(file, names)`: header-less CSV read with the given
column names; the parsed, NaN-normalized rows are the model's input. -/
def read_from_csv (rows : List (List Value)) (names : List String) : Frame :=
  { cols := names, rows := rows }

/-- Model of the rename of column SEQUENCE to seq, applied to one name. -/
def renameSeq (c : String) : String :=
  if c == "SEQUENCE" then "seq" else c

/-- Model of `read_summary_file(file, names)`: read then rename `SEQUENCE` to
`seq`. -/
def read_summary_file (rows : List (List Value)) (names : List String) : Frame :=
  { cols := (read_from_csv rows names).cols.map renameSeq,
    rows := (read_from_csv rows names).rows }

/-- Model of `get_by_summary_level(df, summary_level)`:
`df[df['SUMLEVEL'] == summary_level]`. -/
def get_by_summary_level (df : Frame) (summary_level : String) : Frame :=
  { cols := df.cols,
    rows := df.rows.filter (fun r => df.getCell r "SUMLEVEL" == some summary_level) }

/-- Model of `df[[c1, c2, ...]]`: column projection by name. -/
def Frame.select (df : Frame) (cs : List String) : Frame :=
  { cols := cs, rows := df.rows.map (fun r => cs.map (df.getCell r)) }

/-- Model of `get_logical_records(fp, names, summary_level)`: read the geography
file with the geo template names, filter by summary level, and keep
`['GEOID', 'LOGRECNO']`. -/
def get_logical_records (rows : List (List Value)) (names : List String)
    (summary_level : String) : Frame :=
  (get_by_summary_level (read_from_csv rows names) summary_level).select
    ["GEOID", "LOGRECNO"]

/-- The key columns of `edf.merge(logi_recs)`: pandas merges on the
columns the two frames share, in left order. -/
def Frame.mergeOn (edf logi : Frame) : List String :=
  edf.cols.filter (fun c => logi.cols.contains c)

/-- The right-only columns appended by `edf.merge(logi_recs)`. -/
def Frame.mergeExtra (edf logi : Frame) : List String :=
  logi.cols.filter (fun c => !(edf.cols.contains c))

/-- Whether a left row and a right row agree on every shared column. -/
def Frame.mergeMatch (edf logi : Frame) (r g : List Value) : Bool :=
  (edf.mergeOn logi).all (fun c => edf.getCell r c == logi.getCell g c)

/-- Model of `edf.merge(logi_recs)`: inner join on the shared columns, left key
order, right-only columns appended on the right. -/
def Frame.merge (edf logi : Frame) : Frame :=
  { cols := edf.cols ++ edf.mergeExtra logi,
    rows := edf.rows.flatMap (fun r =>
      (logi.rows.filter (fun g => edf.mergeMatch logi r g)).map
        (fun g => r ++ (edf.mergeExtra logi).map (logi.getCell g))) }

/-- Model of `df.set_index(c)`: move the named column out of the columns and
into the index. -/
def Frame.set_index (f : Frame) (c : String) : KFrame :=
  match f.cols.findIdx? (fun x => x == c) with
  | some i =>
    { index := f.rows.map (fun r => r.getD i none),
      cols := f.cols.eraseIdx i,
      rows := f.rows.map (fun r => r.eraseIdx i) }
  | none =>
    { index := f.rows.map (fun _ => none), cols := f.cols, rows := f.rows }

/-- Model of `use_col_nums = list(range(start - 1, end))`: the 0-based half-open
position range derived from the slice's 1-based inclusive bounds. -/
def useColNums (start_col end_col : Nat) : List Nat :=
  List.range' (start_col - 1) (end_col - (start_col - 1))

/-- Model of `df.iloc[:, idxs]`: positional column projection. -/
def KFrame.iloc (f : KFrame) (idxs : List Nat) : KFrame :=
  { index := f.index,
    cols := idxs.filterMap (fun i => f.cols.get? i),
    rows := f.rows.map (fun r => idxs.filterMap (fun i => r.get? i)) }

/-- Index union of `pd.concat(frames, axis=1)`: labels in order of
first appearance. -/
def concatIndex (frames : List KFrame) : List Value :=
  frames.foldl (fun acc fr => acc ++ fr.index.filter (fun ix => !(acc.contains ix))) []

/-- The cells a frame contributes at one index label (all NaN when the
label is absent from that frame). -/
def KFrame.rowAt (fr : KFrame) (ix : Value) : List Value :=
  match fr.index.findIdx? (fun j => j == ix) with
  | some i => fr.rows.getD i (List.replicate fr.cols.length none)
  | none => List.replicate fr.cols.length none

/-- Model of `pd.concat(frames, axis=1)`: outer union over index labels,
columns concatenated side by side. -/
def concatCols (frames : List KFrame) : KFrame :=
  { index := concatIndex frames,
    cols := frames.flatMap (fun fr => fr.cols),
    rows := (concatIndex frames).map (fun ix => frames.flatMap (fun fr => fr.rowAt ix)) }

/-- Model of `df.reset_index()` for a `GEOID`-indexed frame: the index comes
back as the first column. -/
def KFrame.reset_index (f : KFrame) : CsvDf :=
  { header := "GEOID" :: f.cols,
    rows := List.zipWith (fun ix r => ix :: r) f.index f.rows }

/-- The result of opening and reading one estimate file from the open
archive: `absent` models `efiles[seq]` raising `KeyError` (the
sequence has no `e...` member), `unreadable` models `z.open`/the read
raising `OSError` (the caught class), `ok` carries the parsed rows. -/
inductive EstFile
  | absent
  | unreadable
  | ok (rows : List (List Value))
deriving DecidableEq

/-- One slice's assembly step in the table loop:
`read_summary_file`, `merge(logi_recs)`, `set_index('GEOID')`,
`iloc[:, range(start - 1, end)]`. -/
def sliceFrame (template : List String) (rows : List (List Value))
    (logi_recs : Frame) (start_col end_col : Nat) : KFrame :=
  (((read_summary_file rows template).merge logi_recs).set_index "GEOID").iloc
    (useColNums start_col end_col)

/-- Control flow of the slice loop: `crash` is an uncaught `KeyError`
(missing template or missing estimate file), `done` carries
`sequence_data` when the loop ends, by exhaustion or by `break`. -/
inductive SliceLoopResult
  | crash
  | done (acc : List KFrame)
deriving DecidableEq

/-- The `for seq, start, end in zip(...)` loop of `main`: look up the
template (uncaught `KeyError` if absent), open and read the estimate
file (`break` on `OSError`, uncaught `KeyError` when no such file),
assemble the slice and append it to `sequence_data`. -/
def sliceLoop (templates : String → Option (List String)) (est : String → EstFile)
    (logi_recs : Frame) :
    List (String × Nat × Nat) → List KFrame → SliceLoopResult
  | [], acc => .done acc
  | (seq, start_col, end_col) :: rest, acc =>
    match templates seq with
    | none => .crash
    | some template =>
      match est seq with
      | .absent => .crash
      | .unreadable => .done acc
      | .ok rows =>
        sliceLoop templates est logi_recs rest
          (acc ++ [sliceFrame template rows logi_recs start_col end_col])

/-- Outcome of one table in one partition: `written` carries the frame
passed to `to_csv` (and `built` is incremented), `dropped` is the
`if sequence_data:` guard failing, `crash` aborts the run. -/
inductive TableOutcome
  | crash
  | written (df : CsvDf)
  | dropped
deriving DecidableEq

/-- One iteration of the `for n, table in enumerate(all_tables)` loop:
run the slice loop, then `if sequence_data:` concatenate column-wise,
`reset_index`, and write; otherwise the table is dropped. -/
def processTable (templates : String → Option (List String)) (est : String → EstFile)
    (logi_recs : Frame) (slices : List (String × Nat × Nat)) : TableOutcome :=
  match sliceLoop templates est logi_recs slices [] with
  | .crash => .crash
  | .done [] => .dropped
  | .done (fr :: frs) => .written (concatCols (fr :: frs)).reset_index

/-- Marker of where `built += 1` happens: exactly on the written branch of the table
loop; a `dropped` outcome leaves `built` unchanged. -/
def countsBuilt : TableOutcome → Bool
  | .written _ => true
  | _ => false

/-- One line of an output artifact, kept structured: the header line
`to_csv` emits when `f.tell() == 0`, or one data row. -/
inductive Line
  | header (cols : List String)
  | data (cells : List Value)
deriving DecidableEq

/-- Model of the write call: open the artifact in append mode and
emit CSV with a header exactly when the file position is zero: append to the artifact, emitting the header line only
when the artifact is empty (or did not yet exist). -/
def writeCsvAppend (artifact : List Line) (df : CsvDf) : List Line :=
  artifact ++ (if artifact.isEmpty then [Line.header df.header] else [])
    ++ df.rows.map Line.data

/-- Number of header lines in an artifact. -/
def headerCount (artifact : List Line) : Nat :=
  (artifact.filter (fun l => match l with | .header _ => true | .data _ => false)).length

/-- The data lines of an artifact, in order. -/
def dataLines (artifact : List Line) : List Line :=
  artifact.filter (fun l => match l with | .header _ => false | .data _ => true)

/-- The canonical full state selection of `get_config`: the expansion
of the sentinel `"all"` (`states_list` in the source), 53 names. -/
def states_list : List String :=
  ["Alabama", "Alaska", "Arizona", "Arkansas", "California",
   "Colorado", "Connecticut", "DistrictOfColumbia", "Delaware", "Florida",
   "Georgia", "Hawaii", "Idaho", "Illinois", "Indiana", "Iowa", "Kansas",
   "Kentucky", "Louisiana", "Maine", "Maryland", "Massachusetts", "Michigan",
   "Minnesota", "Mississippi", "Missouri", "Montana", "Nebraska", "Nevada",
   "NewHampshire", "NewJersey", "NewMexico", "NewYork", "NorthCarolina",
   "NorthDakota", "Ohio", "Oklahoma", "Oregon", "Pennsylvania", "RhodeIsland",
   "SouthCarolina", "SouthDakota", "Tennessee", "Texas", "Utah", "Vermont",
   "Virginia", "Washington", "WestVirginia", "Wisconsin", "Wyoming",
   "UnitedStates", "PuertoRico"]

/-- The output artifact name chosen in `main`:
`table + '.csv'` when `len(states) == 53`, else `state + table + '.csv'`. -/
def table_csv_name (states : List String) (state table : String) : String :=
  if states.length == 53 then table ++ ".csv" else state ++ table ++ ".csv"

/-- Split a character list at its first `'-'`, if any. -/
def splitFirstDash : List Char → Option (List Char × List Char)
  | [] => none
  | c :: cs =>
    if c = '-' then some ([], cs)
    else (splitFirstDash cs).map (fun p => (c :: p.1, p.2))

/-- Python `s.split('-', 1)`: split at the first separator only; a
separator-free string stays whole. -/
def splitOnce (s : String) : List String :=
  match splitFirstDash s.data with
  | none => [s]
  | some (a, b) => [String.mk a, String.mk b]

/-- Decimal digit value of a character, if it is a digit. -/
def digitVal (c : Char) : Option Nat :=
  if '0' ≤ c ∧ c ≤ '9' then some (c.toNat - 48) else none

/-- Parse a nonempty all-digit character list as a natural number. -/
def parseNatDigits : List Char → Option Nat
  | [] => none
  | cs => go cs 0
where
  go : List Char → Nat → Option Nat
    | [], acc => some acc
    | c :: cs, acc =>
      match digitVal c with
      | some d => go cs (acc * 10 + d)
      | none => none

/-- Integer parse of one string, as `pd.to_numeric` accepts the
integer-valued catalog ranges: optional leading minus, then digits. -/
def parseIntStr (s : String) : Option Int :=
  match s.data with
  | '-' :: rest => (parseNatDigits rest).map (fun n => -(n : Int))
  | cs => (parseNatDigits cs).map (fun n => (n : Int))

/-- Model of `pd.to_numeric` on one cell of the split result: NaN passes
through as NaN, an integer string converts, anything else raises
`ValueError` (`none` here). Catalog ranges are integer-valued. -/
def toNumericCell : Option String → Option (Option Int)
  | none => some none
  | some s =>
    match parseIntStr s with
    | some n => some (some n)
    | none => none

/-- All-or-nothing collection of the per-cell conversions, as
`pd.to_numeric` on a whole column: one bad cell fails the column. -/
def seqCells : List (Option (Option Int)) → Option (List (Option Int))
  | [] => some []
  | none :: _ => none
  | some v :: rest => (seqCells rest).map (fun vs => v :: vs)

/-- Model of the split of the start-end column applied cell-wise: a NaN
cell stays NaN. -/
def catalogParts (cells : List (Option String)) : List (Option (List String)) :=
  cells.map (Option.map splitOnce)

/-- Column count of the `expand=True` split frame: the maximal split
width over the rows (a NaN cell occupies one column). -/
def catalogWidth (cells : List (Option String)) : Nat :=
  (catalogParts cells).foldl (fun m p => max m ((p.map List.length).getD 1)) 0

/-- Model of `pd.to_numeric` over the start column: the first split part of every
row, or `none` when some cell raises `ValueError`. -/
def catalogStarts (cells : List (Option String)) : Option (List (Option Int)) :=
  seqCells ((catalogParts cells).map (fun p => toNumericCell (p.bind (fun l => l.get? 0))))

/-- Model of `pd.to_numeric` over the end column: the second split part of every
row (NaN when a row had no separator), or `none` on `ValueError`. -/
def catalogEnds (cells : List (Option String)) : Option (List (Option Int)) :=
  seqCells ((catalogParts cells).map (fun p => toNumericCell (p.bind (fun l => l.get? 1))))

/-- The catalog-range load of `main` over the `start_end` column:
`appx_A[['start', 'end']] = appx_A['start_end'].str.split('-', 1,
expand=True)` followed by `pd.to_numeric` on both new columns, with
`except ValueError` raising `SystemExit` (`Except.error`). Assigning
the expanded frame to two columns raises `ValueError` when it is
narrower than two columns. -/
def loadCatalogRanges (cells : List (Option String)) :
    Except Unit (List (Option Int × Option Int)) :=
  if catalogWidth cells < 2 then .error ()
  else
    match catalogStarts cells, catalogEnds cells with
    | some starts, some ends => .ok (starts.zip ends)
    | _, _ => .error ()

/-- Whether a `start_end` cell splits into exactly two integer-numeric
parts (the well-formed catalog shape of the claim). -/
def twoNumericParts : Option String → Bool
  | none => false
  | some s =>
    match splitOnce s with
    | [a, b] => (parseIntStr a).isSome && (parseIntStr b).isSome
    | _ => false

/-- Whether one character list is a prefix of another. -/
def charsAreFirst : List Char → List Char → Bool
  | [], _ => true
  | _ :: _, [] => false
  | p :: ps, c :: cs => p == c && charsAreFirst ps cs

/-- Model of `f.startswith(pre)` on member names. -/
def nameBegins (f pre : String) : Bool := charsAreFirst pre.data f.data

/-- Model of `f.endswith(suf)` on member names. -/
def nameFinishes (f suf : String) : Bool :=
  charsAreFirst suf.data.reverse f.data.reverse

/-- One opened summary-file archive: its member names and a reader
whose `none` models `OSError` on `z.open`/the CSV read. -/
structure ArchivePart where
  names : List String
  readFile : String → Option (List (List Value))

/-- Outcome of one `(state, summary_level)` iteration of `main`:
`skipArchive` is the outer `except OSError: continue` (archive
unreadable), `skipGeo` the inner `except OSError: continue` (geography
stream unreadable), `crashNoGeo` the uncaught `IndexError` of
`[f for f in z.namelist() if f.startswith('g') and f.endswith('csv')][0]`
when the archive holds no geography CSV, and `processed` carries the
geography index the table loop then uses. -/
inductive LevelOutcome
  | skipArchive
  | skipGeo
  | crashNoGeo
  | processed (logi_recs : Frame)
deriving DecidableEq

/-- The body of the `for summary_level in summary_levels` loop, up to
the table loop: open the archive (`OSError` skips the level), locate
the geography member (none at all crashes the run), read it (`OSError`
skips the level), and build the geography index. -/
def processLevel (arch : Option ArchivePart) (geoNames : List String)
    (summary_level : String) : LevelOutcome :=
  match arch with
  | none => .skipArchive
  | some a =>
    match (a.names.filter (fun f => nameBegins f "g" && nameFinishes f "csv")).head? with
    | none => .crashNoGeo
    | some geofile =>
      match a.readFile geofile with
      | none => .skipGeo
      | some grows => .processed (get_logical_records grows geoNames summary_level)

/-- The summary-level loop of one state: each level is attempted in
order; a `crashNoGeo` outcome is an uncaught exception that aborts the
whole run (`Except.error`). -/
def runLevels (archFor : String → Option ArchivePart) (geoNames : List String) :
    List String → Except Unit (List LevelOutcome)
  | [] => .ok []
  | l :: ls =>
    match processLevel (archFor l) geoNames l with
    | .crashNoGeo => .error ()
    | o =>
      match runLevels archFor geoNames ls with
      | .error u => .error u
      | .ok rest => .ok (o :: rest)

/-- The state loop of `main`: every state runs its level loop; an
uncaught crash in any state aborts the run, so later states are never
attempted. -/
def runUnits (units : List String) (archFor : String → String → Option ArchivePart)
    (geoNames : List String) (levels : List String) :
    Except Unit (List (List LevelOutcome)) :=
  match units with
  | [] => .ok []
  | u :: us =>
    match runLevels (archFor u) geoNames levels with
    | .error e => .error e
    | .ok outs =>
      match runUnits us archFor geoNames levels with
      | .error e => .error e
      | .ok rest => .ok (outs :: rest)

theorem length_filterMap_of_isSome {α β : Type} (f : α → Option β) (l : List α)
    (h : ∀ a ∈ l, (f a).isSome) : (l.filterMap f).length = l.length := by
  induction l with
  | nil => rfl
  | cons a l ih =>
    rcases Option.isSome_iff_exists.mp (h a (List.mem_cons_self a l)) with ⟨b, hb⟩
    simp [List.filterMap_cons, hb,
      ih (fun x hx => h x (List.mem_cons_of_mem a hx))]

theorem writeCsvAppend_ne_nil (art : List Line) (df : CsvDf) (h : art ≠ []) :
    writeCsvAppend art df ≠ [] := by
  unfold writeCsvAppend
  intro hc
  rcases List.append_eq_nil.mp hc with ⟨hc1, _⟩
  rcases List.append_eq_nil.mp hc1 with ⟨hc2, _⟩
  exact h hc2

theorem foldl_write_of_ne_nil (dfs : List CsvDf) :
    ∀ art : List Line, art ≠ [] →
      dfs.foldl writeCsvAppend art =
        art ++ dfs.flatMap (fun d => d.rows.map Line.data) := by
  induction dfs with
  | nil => intro art _; simp
  | cons d ds ih =>
    intro art hart
    have hart2 : writeCsvAppend art d ≠ [] := writeCsvAppend_ne_nil art d hart
    simp only [List.foldl_cons]
    rw [ih (writeCsvAppend art d) hart2]
    have he : art.isEmpty = false := by
      cases art with
      | nil => exact absurd rfl hart
      | cons x xs => rfl
    simp [writeCsvAppend, he, List.append_assoc]

theorem headerCount_append (a b : List Line) :
    headerCount (a ++ b) = headerCount a + headerCount b := by
  simp [headerCount, List.filter_append]

theorem headerCount_dataMap (rs : List (List Value)) :
    headerCount (rs.map Line.data) = 0 := by
  induction rs with
  | nil => rfl
  | cons r rs ih => simp [headerCount, List.filter] at ih ⊢

theorem dataLines_append (a b : List Line) :
    dataLines (a ++ b) = dataLines a ++ dataLines b := by
  simp [dataLines, List.filter_append]

theorem dataLines_dataMap (rs : List (List Value)) :
    dataLines (rs.map Line.data) = rs.map Line.data := by
  induction rs with
  | nil => rfl
  | cons r rs ih => simp [dataLines, List.filter] at ih ⊢

/-- Claim C2: for every slice with 1-based inclusive bounds
`start ≤ end`, the assembler projects the joined frame's columns to
the 0-based half-open range `[start - 1, end)`, and the projected
column count is exactly `end - start + 1`. -/
theorem C2_slice_projection_width (f : KFrame) (start_col end_col : Nat)
    (h1 : 1 ≤ start_col) (h2 : start_col ≤ end_col)
    (h3 : end_col ≤ f.cols.length) :
    useColNums start_col end_col = List.range' (start_col - 1) (end_col - start_col + 1) ∧
    (f.iloc (useColNums start_col end_col)).cols.length = end_col - start_col + 1 := by
  have hk : end_col - (start_col - 1) = end_col - start_col + 1 := by omega
  refine ⟨by rw [useColNums, hk], ?_⟩
  have hall : ∀ i ∈ useColNums start_col end_col, (f.cols.get? i).isSome := by
    intro i hi
    rw [useColNums] at hi
    have hb := List.mem_range'_1.mp hi
    have hlt : i < f.cols.length := by omega
    rw [List.get?_eq_get hlt]
    rfl
  show ((useColNums start_col end_col).filterMap (fun i => f.cols.get? i)).length = _
  rw [length_filterMap_of_isSome _ _ hall, useColNums, hk, List.length_range']

/-- Witness for C2 at a concrete joined frame and the bounds (3, 5). -/
theorem C2_slice_projection_width_witness :
    useColNums 3 5 = List.range' 2 3 ∧
    ((⟨[some "g"], ["A", "B", "C", "D", "E"], [[some "1", some "2", some "3", some "4", some "5"]]⟩ : KFrame).iloc
      (useColNums 3 5)).cols.length = 3 :=
  C2_slice_projection_width _ 3 5 (by decide) (by decide) (by decide)

/-- Claim C4: starting from a nonexistent or empty artifact, the
header line is written exactly once — by the first write — and every
later write appends data rows only, so the artifact holds the
concatenation of all contributing writes' rows under one header. -/
theorem C4_header_exactly_once (dfs : List CsvDf) (h : dfs ≠ []) :
    headerCount (dfs.foldl writeCsvAppend []) = 1 ∧
    dataLines (dfs.foldl writeCsvAppend []) =
      dfs.flatMap (fun d => d.rows.map Line.data) := by
  cases dfs with
  | nil => exact absurd rfl h
  | cons d ds =>
    simp only [List.foldl_cons]
    have h0 : writeCsvAppend [] d = Line.header d.header :: d.rows.map Line.data := by
      simp [writeCsvAppend]
    rw [h0, foldl_write_of_ne_nil ds _ (by simp)]
    constructor
    · have : (Line.header d.header :: d.rows.map Line.data) = [Line.header d.header] ++ d.rows.map Line.data := rfl
      rw [this, headerCount_append, headerCount_append, headerCount_dataMap]
      have : headerCount (ds.flatMap (fun d => d.rows.map Line.data)) = 0 := by
        induction ds with
        | nil => rfl
        | cons x xs ih => simp [List.flatMap_cons, headerCount_append, headerCount_dataMap, ih]
      rw [this]
      rfl
    · have : (Line.header d.header :: d.rows.map Line.data) = [Line.header d.header] ++ d.rows.map Line.data := rfl
      rw [this, dataLines_append, dataLines_append, dataLines_dataMap]
      have hflat : dataLines (ds.flatMap (fun d => d.rows.map Line.data)) =
          ds.flatMap (fun d => d.rows.map Line.data) := by
        induction ds with
        | nil => rfl
        | cons x xs ih => simp [List.flatMap_cons, dataLines_append, dataLines_dataMap, ih]
      rw [hflat]
      rfl

/-- Witness for C4: two units contribute writes to one consolidated
artifact; the result carries exactly one header and both data rows. -/
theorem C4_header_exactly_once_witness :
    headerCount ([⟨["GEOID", "B01001_E001"], [[some "0100000US", some "328239523"]]⟩,
        ⟨["GEOID", "B01001_E001"], [[some "0400000US01", some "4903185"]]⟩].foldl
          writeCsvAppend []) = 1 ∧
    dataLines ([⟨["GEOID", "B01001_E001"], [[some "0100000US", some "328239523"]]⟩,
        ⟨["GEOID", "B01001_E001"], [[some "0400000US01", some "4903185"]]⟩].foldl
          writeCsvAppend []) =
      [⟨["GEOID", "B01001_E001"], [[some "0100000US", some "328239523"]]⟩,
        (⟨["GEOID", "B01001_E001"], [[some "0400000US01", some "4903185"]]⟩ : CsvDf)].flatMap
          (fun d => d.rows.map Line.data) :=
  C4_header_exactly_once _ (by decide)

/-- Counterexample to claim C5: the artifacts are opened with mode
`'a'` and never truncated, so running the same per-unit write sequence
a second time appends the rows again — the artifact after the second
run differs from the artifact after the first. -/
theorem C5_counterexample :
    [(⟨["GEOID", "B01001_E001"], [[some "0400000US01", some "4903185"]]⟩ : CsvDf)].foldl
        writeCsvAppend
        ([(⟨["GEOID", "B01001_E001"], [[some "0400000US01", some "4903185"]]⟩ : CsvDf)].foldl
          writeCsvAppend []) ≠
      [(⟨["GEOID", "B01001_E001"], [[some "0400000US01", some "4903185"]]⟩ : CsvDf)].foldl
        writeCsvAppend [] := by
  decide

/-- Claim C5 as amended: a second run over unchanged inputs does not
reproduce the first run's artifact byte for byte; because the first
run left the artifact nonempty, every write of the second run appends
its data rows with no further header, so the artifact ends as the
first run's content followed by the same data rows again. -/
theorem C5_second_run_appends (dfs : List CsvDf) :
    dfs.foldl writeCsvAppend (dfs.foldl writeCsvAppend []) =
      dfs.foldl writeCsvAppend [] ++ dfs.flatMap (fun d => d.rows.map Line.data) := by
  cases dfs with
  | nil => rfl
  | cons d ds =>
    have h0 : writeCsvAppend [] d = Line.header d.header :: d.rows.map Line.data := by
      simp [writeCsvAppend]
    have hne : (d :: ds).foldl writeCsvAppend [] ≠ [] := by
      simp only [List.foldl_cons]
      rw [foldl_write_of_ne_nil ds _ (by rw [h0]; exact List.cons_ne_nil _ _), h0]
      simp
    exact foldl_write_of_ne_nil (d :: ds) _ hne

/-- Counterexample to claim C6: 53 copies of one state trigger the
table-only artifact name even though the geographic scope is not the
full canonical selection (it is not `states_list`, and it misses
`Alaska`, which the canonical selection contains). -/
theorem C6_counterexample :
    table_csv_name (List.replicate 53 "Maryland") "Maryland" "B01001" = "B01001.csv" ∧
    List.replicate 53 "Maryland" ≠ states_list ∧
    "Alaska" ∈ states_list ∧ "Alaska" ∉ List.replicate 53 "Maryland" := by
  decide

/-- Claim C6 as amended: the artifact is named by table alone if and
only if the run's state list has exactly 53 entries — the length of
the canonical full selection (which the sentinel `"all"` expands to) —
so the full canonical selection consolidates, but so does any other
53-entry selection. -/
theorem C6_consolidation_by_length (states : List String) (state table : String)
    (h : state.length ≠ 0) :
    (table_csv_name states state table = table ++ ".csv" ↔ states.length = 53) ∧
    states_list.length = 53 := by
  refine ⟨?_, by decide⟩
  unfold table_csv_name
  by_cases hl : states.length = 53
  · simp [hl]
  · simp only [hl, beq_iff_eq, if_neg, iff_false]
    intro heq
    have hlen := congrArg String.length heq
    simp [String.length_append] at hlen
    omega

/-- Witness for C6 as amended: the canonical full selection gets the
consolidated, table-only artifact name. -/
theorem C6_consolidation_by_length_witness :
    (table_csv_name states_list "Maryland" "B01001" = "B01001.csv" ↔
      states_list.length = 53) ∧ states_list.length = 53 :=
  C6_consolidation_by_length states_list "Maryland" "B01001" (by decide)

/-- A one-sequence template registry (sequence `"0001"`, nine fields
with three data columns), as `get_templates` would build it. -/
def tmplReg1 : String → Option (List String) := fun s =>
  if s == "0001" then
    some ["FILEID", "FILETYPE", "STUSAB", "CHARITER", "SEQUENCE", "LOGRECNO",
      "EST1", "EST2", "EST3"]
  else none

/-- Sequence `"0001"` reads fine and holds one estimate row keyed by
logical record `42`. -/
def estReg1 : String → EstFile := fun s =>
  if s == "0001" then
    .ok [[some "ACSSF", some "2019e5", some "al", some "000", some "0001",
      some "42", some "1", some "2", some "3"]]
  else .absent

/-- A geography index with zero rows: the requested summary level
matched no geography row. -/
def logiEmpty : Frame := ⟨["GEOID", "LOGRECNO"], []⟩

/-- Claim C1, evaluated at the failing input: with zero geography rows
every slice joins to zero rows, yet `sequence_data` is a non-empty
list of (empty) frames, so the `if sequence_data:` guard passes — the
table is `written` (the artifact is opened and receives a header
line), and `built` is incremented instead of the table counting as
dropped. -/
theorem C1_vacuous_table_still_written :
    processTable tmplReg1 estReg1 logiEmpty [("0001", 3, 5)] =
      .written ⟨["GEOID", "STUSAB", "CHARITER", "seq"], []⟩ ∧
    countsBuilt (processTable tmplReg1 estReg1 logiEmpty [("0001", 3, 5)]) = true ∧
    writeCsvAppend [] ⟨["GEOID", "STUSAB", "CHARITER", "seq"], []⟩ =
      [Line.header ["GEOID", "STUSAB", "CHARITER", "seq"]] := by
  decide

/-- A two-sequence template registry for a table split across
sequences `"0001"` and `"0002"` (seven fields, one data column each). -/
def tmplReg2 : String → Option (List String) := fun s =>
  if s == "0001" || s == "0002" then
    some ["FILEID", "FILETYPE", "STUSAB", "CHARITER", "SEQUENCE", "LOGRECNO", "EST1"]
  else none

/-- Sequence `"0001"` reads fine; sequence `"0002"` raises `OSError`
on open (`SequenceReadError` after one slice was already read). -/
def estReg2 : String → EstFile := fun s =>
  if s == "0001" then
    .ok [[some "ACSSF", some "2019e5", some "al", some "000", some "0001",
      some "42", some "100"]]
  else if s == "0002" then .unreadable
  else .absent

/-- A one-row geography index: `GEOID` `G1` at logical record `42`. -/
def logiOne : Frame := ⟨["GEOID", "LOGRECNO"], [[some "G1", some "42"]]⟩

/-- Claim C3, evaluated at the failing input: the second slice's
sequence file is unreadable, the loop `break`s, but `sequence_data`
still holds the first slice, so — the `# Guard rail against file
errors above` notwithstanding — the partial assembly (only the first
slice's column) is written and counted as built, not discarded. -/
theorem C3_incomplete_assembly_written :
    processTable tmplReg2 estReg2 logiOne [("0001", 7, 7), ("0002", 7, 7)] =
      .written ⟨["GEOID", "EST1"], [[some "G1", some "100"]]⟩ ∧
    countsBuilt
      (processTable tmplReg2 estReg2 logiOne [("0001", 7, 7), ("0002", 7, 7)]) = true := by
  decide

theorem foldl_max_le_init {α : Type} (g : α → Nat) :
    ∀ (l : List α) (b : Nat), b ≤ l.foldl (fun m x => max m (g x)) b
  | [], _ => le_refl _
  | x :: l, b =>
    le_trans (le_max_left b (g x)) (foldl_max_le_init g l (max b (g x)))

theorem le_foldl_max {α : Type} (g : α → Nat) :
    ∀ (l : List α) (b : Nat) (a : α), a ∈ l → g a ≤ l.foldl (fun m x => max m (g x)) b
  | [], _, a, ha => absurd ha (List.not_mem_nil a)
  | x :: xs, b, a, ha => by
    rcases List.mem_cons.mp ha with h | h
    · subst h
      exact le_trans (le_max_right b (g a)) (foldl_max_le_init g xs (max b (g a)))
    · exact le_foldl_max g xs (max b (g x)) a h

theorem seqCells_isSome (l : List (Option (Option Int))) (h : ∀ x ∈ l, x.isSome) :
    ∃ ys, seqCells l = some ys := by
  induction l with
  | nil => exact ⟨[], rfl⟩
  | cons x xs ih =>
    rcases Option.isSome_iff_exists.mp (h x (List.mem_cons_self x xs)) with ⟨v, hv⟩
    rcases ih (fun y hy => h y (List.mem_cons_of_mem x hy)) with ⟨ys, hys⟩
    exact ⟨v :: ys, by simp [hv, seqCells, hys]⟩

theorem twoNumericParts_shape (c : Option String) (h : twoNumericParts c = true) :
    ∃ s a b, c = some s ∧ splitOnce s = [a, b] ∧
      (parseIntStr a).isSome ∧ (parseIntStr b).isSome := by
  cases c with
  | none => exact absurd h (by simp [twoNumericParts])
  | some s =>
    refine ⟨s, ?_⟩
    rw [twoNumericParts] at h
    rcases hsp : splitOnce s with _ | ⟨a, _ | ⟨b, _ | _⟩⟩ <;> rw [hsp] at h
    · simp at h
    · simp at h
    · simp only [Bool.and_eq_true] at h
      exact ⟨a, b, rfl, rfl, h.1, h.2⟩
    · simp at h

/-- Counterexample to claim C7: the catalog row `"7"` does not split
into exactly two numeric parts, yet catalog loading succeeds — the
rows become `(1, 5)` and `(7, NaN)` and the run proceeds, because the
missing second part becomes NaN and `pd.to_numeric` passes NaN
through without a `ValueError`. -/
theorem C7_counterexample :
    twoNumericParts (some "7") = false ∧
    loadCatalogRanges [some "1-5", some "7"] =
      Except.ok [(some 1, some 5), (some 7, none)] :=
  ⟨rfl, rfl⟩

/-- Claim C7 as amended: when every row splits into exactly two
numeric parts, catalog loading succeeds and the run proceeds; but
failure is not equivalent to a row violating that shape — a
separator-free row among separated rows yields an absent end and
still proceeds, and the load aborts only when a present part is
non-numeric or when no row at all reaches two parts. -/
theorem C7_two_numeric_parts_proceed (cells : List (Option String))
    (h1 : cells ≠ []) (h2 : ∀ c ∈ cells, twoNumericParts c = true) :
    ∃ ps, loadCatalogRanges cells = Except.ok ps := by
  obtain ⟨c0, hc0⟩ : ∃ c, c ∈ cells := by
    cases cells with
    | nil => exact absurd rfl h1
    | cons x xs => exact ⟨x, List.mem_cons_self x xs⟩
  obtain ⟨s0, a0, b0, hc0eq, hsp0, -, -⟩ := twoNumericParts_shape c0 (h2 c0 hc0)
  have hw : ¬ (catalogWidth cells < 2) := by
    have hle := le_foldl_max (fun p => ((p.map List.length).getD 1))
      (catalogParts cells) 0 (Option.map splitOnce c0)
      (List.mem_map_of_mem _ hc0)
    rw [hc0eq] at hle
    simp only [Option.map_some', hsp0, List.length_cons, List.length_nil,
      Option.getD_some] at hle
    rw [catalogWidth]
    omega
  have hstart : ∀ x ∈ (catalogParts cells).map
      (fun p => toNumericCell (p.bind (fun l => l.get? 0))), x.isSome := by
    intro x hx
    rcases List.mem_map.mp hx with ⟨p, hp, rfl⟩
    rcases List.mem_map.mp hp with ⟨c, hc, rfl⟩
    obtain ⟨s, a, b, rfl, hsp, ha, -⟩ := twoNumericParts_shape c (h2 c hc)
    rcases Option.isSome_iff_exists.mp ha with ⟨n, hn⟩
    simp [hsp, toNumericCell, hn]
  have hend : ∀ x ∈ (catalogParts cells).map
      (fun p => toNumericCell (p.bind (fun l => l.get? 1))), x.isSome := by
    intro x hx
    rcases List.mem_map.mp hx with ⟨p, hp, rfl⟩
    rcases List.mem_map.mp hp with ⟨c, hc, rfl⟩
    obtain ⟨s, a, b, rfl, hsp, -, hb⟩ := twoNumericParts_shape c (h2 c hc)
    rcases Option.isSome_iff_exists.mp hb with ⟨n, hn⟩
    simp [hsp, toNumericCell, hn]
  obtain ⟨ss, hss⟩ := seqCells_isSome _ hstart
  obtain ⟨es, hes⟩ := seqCells_isSome _ hend
  refine ⟨ss.zip es, ?_⟩
  have hss2 : catalogStarts cells = some ss := hss
  have hes2 : catalogEnds cells = some es := hes
  rw [loadCatalogRanges, if_neg hw, hss2, hes2]

/-- Witness for C7 as amended: a two-row catalog whose ranges both
split into two numeric parts loads successfully. -/
theorem C7_two_numeric_parts_proceed_witness :
    ∃ ps, loadCatalogRanges [some "1-5", some "6-10"] = Except.ok ps :=
  C7_two_numeric_parts_proceed [some "1-5", some "6-10"] (by decide) (by decide)

/-- The geography column template used in concrete instances. -/
def geoNames5 : List String := ["FILEID", "STUSAB", "SUMLEVEL", "LOGRECNO", "GEOID"]

/-- An archive that opens fine but contains no geography CSV: the
member-name comprehension `[... if f.startswith('g') and
f.endswith('csv')][0]` raises an uncaught `IndexError`. -/
def archNoGeo : ArchivePart := ⟨["e20195al0001000.txt"], fun _ => none⟩

/-- Counterexample to claim C8: when a partition's geography file
cannot be located at all, the failure is not scoped to that
(unit, level) — the uncaught `IndexError` aborts the whole run, so
the remaining level `"050"` of `"Alabama"` and the sibling unit
`"Alaska"` are never attempted. -/
theorem C8_counterexample :
    processLevel (some archNoGeo) geoNames5 "040" = .crashNoGeo ∧
    runUnits ["Alabama", "Alaska"] (fun _ _ => some archNoGeo) geoNames5
      ["040", "050"] = Except.error () :=
  ⟨rfl, rfl⟩

theorem runLevels_ok (archFor1 : String → Option ArchivePart)
    (geoNames : List String) (levels : List String)
    (h : ∀ l ∈ levels, processLevel (archFor1 l) geoNames l ≠ .crashNoGeo) :
    runLevels archFor1 geoNames levels =
      Except.ok (levels.map (fun l => processLevel (archFor1 l) geoNames l)) := by
  induction levels with
  | nil => rfl
  | cons l ls ih =>
    have ihls := ih (fun x hx => h x (List.mem_cons_of_mem l hx))
    cases hpl : processLevel (archFor1 l) geoNames l with
    | crashNoGeo => exact absurd hpl (h l (List.mem_cons_self l ls))
    | skipArchive => simp [runLevels, hpl, ihls]
    | skipGeo => simp [runLevels, hpl, ihls]
    | processed lr => simp [runLevels, hpl, ihls]

/-- Claim C8 as amended: the failures the code catches — `OSError`
opening the archive, or `OSError` reading the geography stream — are
scoped to their (unit, level): every other (unit, level) pair is
still attempted with its own independent outcome, and a skipped pair
contributes no table output; but an archive that opens yet contains
no geography CSV member aborts the entire run (see the
counterexample). -/
theorem C8_oserror_failures_scoped (units levels : List String)
    (archFor : String → String → Option ArchivePart) (geoNames : List String)
    (h : ∀ u ∈ units, ∀ l ∈ levels,
      processLevel (archFor u l) geoNames l ≠ .crashNoGeo) :
    runUnits units archFor geoNames levels =
      Except.ok (units.map (fun u =>
        levels.map (fun l => processLevel (archFor u l) geoNames l))) := by
  induction units with
  | nil => rfl
  | cons u us ih =>
    have h1 := runLevels_ok (archFor u) geoNames levels
      (h u (List.mem_cons_self u us))
    have ihus := ih (fun x hx => h x (List.mem_cons_of_mem u hx))
    simp [runUnits, h1, ihus]

/-- Witness for C8 as amended: one unit whose first level's archive is
unreadable (`OSError`, skipped) and whose second level reads fine —
both levels get their own outcome and the run completes. -/
theorem C8_oserror_failures_scoped_witness :
    runUnits ["Alabama"]
      (fun _ l => if l == "040" then none
        else some ⟨["g20195al.csv"], fun _ => some []⟩)
      geoNames5 ["040", "050"] =
      Except.ok ((["Alabama"]).map (fun u =>
        (["040", "050"]).map (fun l =>
          processLevel ((fun _ l => if l == "040" then none
            else some ⟨["g20195al.csv"], fun _ => some []⟩ :
              String → String → Option ArchivePart) u l) geoNames5 l))) :=
  C8_oserror_failures_scoped ["Alabama"] ["040", "050"] _ geoNames5 (by decide)

/-- Counterexample to claim C9: two geography rows of summary level
`"040"` share logical record number `42`; `get_logical_records`
passes both pairs to the join with no error and no deduplication, and
the merge silently multiplies — the single estimate row joins into
two output rows. -/
theorem C9_counterexample :
    get_logical_records
      [[some "f", some "al", some "040", some "42", some "A"],
       [some "f", some "al", some "040", some "42", some "B"]]
      geoNames5 "040" =
      ⟨["GEOID", "LOGRECNO"], [[some "A", some "42"], [some "B", some "42"]]⟩ ∧
    (Frame.merge ⟨["SEQUENCE", "LOGRECNO", "EST1"],
        [[some "0001", some "42", some "9"]]⟩
      (get_logical_records
        [[some "f", some "al", some "040", some "42", some "A"],
         [some "f", some "al", some "040", some "42", some "B"]]
        geoNames5 "040")).rows =
      [[some "0001", some "42", some "9", some "A"],
       [some "0001", some "42", some "9", some "B"]] :=
  ⟨rfl, rfl⟩

/-- Claim C9 as amended: no uniqueness of `geographic_identifier` or
`logical_record_number` is checked anywhere — the geography index
handed to the join is exactly the level-filtered rows, duplicates
included (its row count equals the filtered count), and the inner
merge emits one row per matching (estimate row, geography row) pair,
so duplicate keys silently multiply rows instead of raising a data
error. -/
theorem C9_duplicates_flow_into_join (growsv : List (List Value))
    (names : List String) (lvl : String) (edf logi : Frame) :
    (get_logical_records growsv names lvl).rows.length =
      ((read_from_csv growsv names).rows.filter
        (fun r => (read_from_csv growsv names).getCell r "SUMLEVEL" ==
          some lvl)).length ∧
    (edf.merge logi).rows.length =
      (edf.rows.map (fun r =>
        (logi.rows.filter (fun g => edf.mergeMatch logi r g)).length)).sum := by
  constructor
  · simp [get_logical_records, Frame.select, get_by_summary_level, List.length_map]
  · show (edf.rows.flatMap _).length = _
    rw [List.length_flatMap]
    simp [Function.comp_def, List.length_map]

theorem findIdx?_append_last (a : String) :
    ∀ (E : List String) (i : Nat), (∀ x ∈ E, (x == a) = false) →
      List.findIdx? (fun x => x == a) (E ++ [a]) i = some (i + E.length)
  | [], i, _ => by simp [List.findIdx?_cons]
  | x :: E, i, h => by
    have hx := h x (List.mem_cons_self x E)
    rw [List.cons_append, List.findIdx?_cons, hx]
    simp only [Bool.false_eq_true, if_false]
    rw [findIdx?_append_last a E (i + 1)
      (fun y hy => h y (List.mem_cons_of_mem x hy))]
    congr 1
    simp [List.length_cons]
    omega

theorem set_index_cols_of_last (f : Frame) (E : List String) (a : String)
    (hc : f.cols = E ++ [a]) (h : ∀ x ∈ E, (x == a) = false) :
    (f.set_index a).cols = E := by
  have hf : f.cols.findIdx? (fun x => x == a) = some E.length := by
    rw [hc]
    simpa using findIdx?_append_last a E 0 h
  rw [Frame.set_index, hf]
  simp [hc, List.eraseIdx_append_of_length_le (le_refl E.length)]

/-- Claim C10: the joined-and-indexed frame a slice's `iloc` runs on
has exactly the sequence file's full template field list (with
`SEQUENCE` renamed to `seq`) as its columns in order — `GEOID` alone
moved to the index — so the 0-based positions `start-1 .. end-1`
select full-template positions, leading non-data fields included, not
positions of a value-only vector. -/
theorem C10_slice_positions_are_template_positions (ts : List String)
    (rows : List (List Value)) (logi : Frame) (start_col end_col : Nat)
    (hcols : logi.cols = ["GEOID", "LOGRECNO"])
    (hG : "GEOID" ∉ ts.map renameSeq)
    (hL : "LOGRECNO" ∈ ts.map renameSeq) :
    (((read_summary_file rows ts).merge logi).set_index "GEOID").cols =
      ts.map renameSeq ∧
    (sliceFrame ts rows logi start_col end_col).cols =
      (useColNums start_col end_col).filterMap
        (fun i => (ts.map renameSeq).get? i) := by
  have hGc : (ts.map renameSeq).contains "GEOID" = false := by simpa using hG
  have hLc : (ts.map renameSeq).contains "LOGRECNO" = true := by simpa using hL
  have hsumcols : (read_summary_file rows ts).cols = ts.map renameSeq := rfl
  have hExtra : (read_summary_file rows ts).mergeExtra logi = ["GEOID"] := by
    rw [Frame.mergeExtra, hcols, hsumcols]
    simp only [List.filter_cons, List.filter_nil, hGc, hLc, Bool.not_false,
      Bool.not_true, if_true, if_false, Bool.false_eq_true, Bool.true_eq_false]
  have hmc : ((read_summary_file rows ts).merge logi).cols =
      ts.map renameSeq ++ ["GEOID"] := by
    show (read_summary_file rows ts).cols ++
      (read_summary_file rows ts).mergeExtra logi = _
    rw [hsumcols, hExtra]
  have hnotg : ∀ x ∈ ts.map renameSeq, (x == "GEOID") = false := by
    intro x hx
    cases hb : x == "GEOID" with
    | false => rfl
    | true => exact absurd hx (by rw [eq_of_beq hb] at hx ⊢; exact fun _ => hG hx)
  have h1 : (((read_summary_file rows ts).merge logi).set_index "GEOID").cols =
      ts.map renameSeq :=
    set_index_cols_of_last _ _ _ hmc hnotg
  refine ⟨h1, ?_⟩
  show ((((read_summary_file rows ts).merge logi).set_index "GEOID").iloc
    (useColNums start_col end_col)).cols = _
  rw [KFrame.iloc, h1]

/-- Witness for C10 at a nine-field template: merge and `set_index`
leave the full renamed template as the columns. -/
theorem C10_slice_positions_are_template_positions_witness :
    (((read_summary_file []
        ["FILEID", "FILETYPE", "STUSAB", "CHARITER", "SEQUENCE", "LOGRECNO",
          "EST1", "EST2", "EST3"]).merge
        ⟨["GEOID", "LOGRECNO"], []⟩).set_index "GEOID").cols =
      (["FILEID", "FILETYPE", "STUSAB", "CHARITER", "SEQUENCE", "LOGRECNO",
        "EST1", "EST2", "EST3"]).map renameSeq ∧
    (sliceFrame
      ["FILEID", "FILETYPE", "STUSAB", "CHARITER", "SEQUENCE", "LOGRECNO",
        "EST1", "EST2", "EST3"] [] ⟨["GEOID", "LOGRECNO"], []⟩ 3 5).cols =
      (useColNums 3 5).filterMap
        (fun i => ((["FILEID", "FILETYPE", "STUSAB", "CHARITER", "SEQUENCE",
          "LOGRECNO", "EST1", "EST2", "EST3"]).map renameSeq).get? i) :=
  C10_slice_positions_are_template_positions _ [] _ 3 5 rfl (by decide) (by decide)
